import Mathlib

/-!
Verification of the goal-based SIP planning engine (`src/app.py`).

Monetary amounts and rates are embedded as rationals (`ℚ`), which model
Python float arithmetic exactly on the algebraic operations the engine
uses (`+`, `-`, `*`, `/`, integer `**`); the one place the source raises
a float to a genuinely fractional power (`calculate_lump_sum` applied to
`n_years = n_months / 12`) is parametrised by an explicit power oracle
`pw : ℚ → ℚ → ℚ` standing for Python `**`.  A Python `ZeroDivisionError`
is modelled by `Option`: `none` is an uncaught exception.
-/

namespace SIP

/-- A goal record as built in the app: the dict with keys `Name`, `Year`,
`Present Cost`, `Inflation Rate`, `Years to Goal`, `Future Value`. -/
structure Goal where
  name : String
  year : ℤ
  presentCost : ℚ
  inflationRate : ℚ
  yearsToGoal : ℤ
  futureValue : ℚ
deriving DecidableEq, Repr

/-- Python `int(x)`: truncation toward zero. -/
def intTrunc (q : ℚ) : ℤ := if 0 ≤ q then ⌊q⌋ else ⌈q⌉

/-- Round-half-to-even on rationals, modelling Python `round` to an integer. -/
def roundHalfEven (q : ℚ) : ℤ :=
  let f := ⌊q⌋
  let r := q - f
  if r < 1/2 then f
  else if 1/2 < r then f + 1
  else if f % 2 = 0 then f else f + 1

/-- Python `round(x, 2)`. -/
def pyRound2 (q : ℚ) : ℚ := (roundHalfEven (q * 100) : ℚ) / 100

/-- Source function `calculate_future_value(present_value, rate, years)`:
`present_value * ((1 + rate) ** years)`.  Every call site passes an
integer number of years, so the exponent is an integer power. -/
def calculate_future_value (present_value rate : ℚ) (years : ℤ) : ℚ :=
  present_value * (1 + rate) ^ years

/-- The inner loop body of `compute_future_value` in
`calculate_sip_step_up`: add the current contribution grown
`total_months - month` months, then step the contribution up after every
12th month.  State is `(fv_accum, sip_amount)`. -/
def cfvStep (monthly_rate annual_step_up : ℚ) (total_months : ℕ)
    (st : ℚ × ℚ) (month : ℕ) : ℚ × ℚ :=
  (st.1 + st.2 * (1 + monthly_rate) ^ (total_months - month),
   if (month + 1) % 12 = 0 then st.2 * (1 + annual_step_up) else st.2)

/-- Source closure `compute_future_value(start_sip)` of `calculate_sip_step_up`
(src/app.py lines 22–29): forward accumulation of the step-up
contribution schedule over `range(total_months)`. -/
def compute_future_value (monthly_rate annual_step_up : ℚ) (total_months : ℕ)
    (start_sip : ℚ) : ℚ :=
  ((List.range total_months).foldl
    (cfvStep monthly_rate annual_step_up total_months) (0, start_sip)).1

/-- The bisection loop of `calculate_sip_step_up`: state is
`(low, high, last mid)`; each iteration computes `mid = (low+high)/2`,
raises `low` when the accumulated value at `mid` falls short of `fv`,
otherwise lowers `high`. -/
def stepUpBisect (cf : ℚ → ℚ) (fv : ℚ) : ℕ → ℚ × ℚ × ℚ → ℚ × ℚ × ℚ
  | 0, st => st
  | n + 1, st =>
    let mid := (st.1 + st.2.1) / 2
    if cf mid < fv then stepUpBisect cf fv n (mid, st.2.1, mid)
    else stepUpBisect cf fv n (st.1, mid, mid)

/-- The value of `mid` after the 100 bisection iterations of
`calculate_sip_step_up`, before the final rounding. -/
def stepUpMid (fv annual_return years annual_step_up : ℚ) : ℚ :=
  let monthly_rate := annual_return / 12
  let total_months := (intTrunc (years * 12)).toNat
  (stepUpBisect (compute_future_value monthly_rate annual_step_up total_months)
    fv 100 (0, fv, 0)).2.2

/-- Source function `calculate_sip_step_up(fv, annual_return, years, annual_step_up)`
(src/app.py lines 15–39): bisection over the starting contribution,
result rounded to 2 decimals.  `total_months = int(years * 12)`; a run of
`range(total_months)` with a non-positive count is empty, matching
`.toNat`. -/
def calculate_sip_step_up (fv annual_return years annual_step_up : ℚ) : ℚ :=
  pyRound2 (stepUpMid fv annual_return years annual_step_up)

/-- Source function `calculate_sip(fv, rate, n_months)` (src/app.py lines 41–43):
`fv * monthly_rate / ((1 + monthly_rate) ** n_months - 1)`; `none` models
the `ZeroDivisionError` raised when the denominator is zero. -/
def calculate_sip (fv rate : ℚ) (n_months : ℤ) : Option ℚ :=
  let monthly_rate := rate / 12
  let d := (1 + monthly_rate) ^ n_months - 1
  if d = 0 then none else some (fv * monthly_rate / d)

/-- Source function `calculate_lump_sum(fv, rate, years)` (src/app.py lines 45–46):
`fv / ((1 + rate) ** years)` with a possibly fractional `years`; the
power is taken through the oracle `pw` modelling Python float `**`, and
`none` models the `ZeroDivisionError` on a zero denominator. -/
def calculate_lump_sum (pw : ℚ → ℚ → ℚ) (fv rate years : ℚ) : Option ℚ :=
  let d := pw (1 + rate) years
  if d = 0 then none else some (fv / d)

/-- The empty Python dict, as a partial map from goal names. -/
def emptyDict : String → Option ℚ := fun _ => none

/-- Python dict update `d[k] = v`. -/
def dictInsert (d : String → Option ℚ) (k : String) (v : ℚ) :
    String → Option ℚ :=
  fun s => if s = k then some v else d s

/-- Python dict comprehension initialising every goal name to 0. -/
def zeroDict (gs : List Goal) : String → Option ℚ :=
  gs.foldl (fun d g => dictInsert d g.name 0) emptyDict

/-- The eligible-goal filter of `distribute_proportionally`: all goals if
no lump-sum year is given, else the goals with `Year > lump_sum_year`. -/
def eligibleGoals (gs : List Goal) (lump_sum_year : Option ℤ) : List Goal :=
  match lump_sum_year with
  | none => gs
  | some y => gs.filter (fun g => y < g.year)

/-- Source function `distribute_proportionally(total_amount, goals, lump_sum_year)`
(src/app.py lines 48–74). -/
def distribute_proportionally (total_amount : ℚ) (gs : List Goal)
    (lump_sum_year : Option ℤ) : String → Option ℚ :=
  if gs = [] ∨ total_amount ≤ 0 then zeroDict gs
  else
    let eligible_goals := eligibleGoals gs lump_sum_year
    if eligible_goals = [] then zeroDict gs
    else
      let total_present_cost := (eligible_goals.map (fun g => g.presentCost)).sum
      if total_present_cost = 0 then zeroDict gs
      else
        eligible_goals.foldl
          (fun d g =>
            dictInsert d g.name (total_amount * (g.presentCost / total_present_cost)))
          (zeroDict gs)

/-- One result row of the goal loop (src/app.py lines 202–212), with the
same rounding applied as in the source. -/
structure PlanRow where
  goal : String
  targetYear : ℤ
  originalFutureCost : ℚ
  currentSavingsAllocated : ℚ
  futureLumpSumAllocated : ℚ
  remainingFutureCost : ℚ
  yearsToGoalRow : ℚ
  monthlySipRequired : ℚ
  lumpSumToday : ℚ
deriving DecidableEq, Repr

/-- The run-wide inputs of the backend calculation (src/app.py lines
136–159): savings, future lump sums `(year, amount)`, SIP start, growth
preference and expected return.  `pw` is the Python `**` oracle used by
`calculate_lump_sum`, whose exponent `n_years` may be fractional. -/
structure PlanConfig where
  pw : ℚ → ℚ → ℚ
  currentSavings : ℚ
  futureLumps : List (ℤ × ℚ)
  sipStartYear : ℤ
  sipStartMonthNum : ℤ
  sipGrows : Bool
  annualGrowthRate : ℚ
  expectedReturn : ℚ

/-- The loop state: accumulated result rows, skipped-goal warnings (the
names surfaced by `st.warning`), and the three running totals. -/
structure PlanState where
  results : List PlanRow
  warnings : List String
  total_fv : ℚ
  total_lumpsum : ℚ
  total_sip : ℚ
deriving DecidableEq, Repr

/-- Month count `n_months` for a goal: from the SIP start month index to December of
the goal's target year (src/app.py lines 165–167). -/
def nMonths (cfg : PlanConfig) (g : Goal) : ℤ :=
  g.year * 12 + 12 - (cfg.sipStartYear * 12 + cfg.sipStartMonthNum)

/-- The future-lump-sum entries `(year, amount)` recorded for one goal
name (src/app.py lines 143–153): each lump sum is distributed over all
goals filtered by its own year, and only positive allocations are kept. -/
def goalLumps (cfg : PlanConfig) (gs : List Goal) (g : Goal) : List (ℤ × ℚ) :=
  cfg.futureLumps.filterMap (fun l =>
    let a := ((distribute_proportionally l.2 gs (some l.1)) g.name).getD 0
    if 0 < a then some (l.1, a) else none)

/-- The non-skip body of the goal loop (src/app.py lines 174–212):
deduct grown savings and lump-sum allocations from the goal's future
value (clamped at 0), then compute the required lump sum and SIP.
Returns the row together with the goal's contributions to
`total_fv`, `total_lumpsum` and `total_sip`; `none` models an uncaught
`ZeroDivisionError` in `calculate_lump_sum` or `calculate_sip`. -/
def goalComp (cfg : PlanConfig) (gs : List Goal) (g : Goal) :
    Option (PlanRow × ℚ × ℚ × ℚ) :=
  let r := cfg.expectedReturn
  let nM := nMonths cfg g
  let nY : ℚ := (nM : ℚ) / 12
  let cs := ((distribute_proportionally cfg.currentSavings gs none) g.name).getD 0
  let fv1 := if 0 < cs then
      max 0 (g.futureValue - cs * (1 + r) ^ g.yearsToGoal)
    else g.futureValue
  let glumps := goalLumps cfg gs g
  let fv2 := glumps.foldl (fun fv l =>
      if l.1 ≤ g.year then max 0 (fv - l.2 * (1 + r) ^ (g.year - l.1)) else fv) fv1
  (calculate_lump_sum cfg.pw fv2 r nY).bind (fun lumpsum =>
    (if cfg.sipGrows then
       some (calculate_sip_step_up fv2 r nY cfg.annualGrowthRate)
     else calculate_sip fv2 r nM).bind (fun sip =>
      some ({ goal := g.name
              targetYear := g.year
              originalFutureCost := pyRound2 g.futureValue
              currentSavingsAllocated := pyRound2 cs
              futureLumpSumAllocated := pyRound2 (glumps.map (fun l => l.2)).sum
              remainingFutureCost := pyRound2 fv2
              yearsToGoalRow := pyRound2 nY
              monthlySipRequired := pyRound2 sip
              lumpSumToday := pyRound2 lumpsum }, fv2, lumpsum, sip)))

/-- One iteration of the goal loop (src/app.py lines 160–212): a goal
with `n_months <= 0` only appends a warning; otherwise its computation
extends the rows and totals, and an exception aborts the run. -/
def planStep (cfg : PlanConfig) (gs : List Goal) (st : PlanState) (g : Goal) :
    Option PlanState :=
  if nMonths cfg g ≤ 0 then
    some { st with warnings := st.warnings ++ [g.name] }
  else
    match goalComp cfg gs g with
    | none => none
    | some r =>
      some { results := st.results ++ [r.1]
             warnings := st.warnings
             total_fv := st.total_fv + r.2.1
             total_lumpsum := st.total_lumpsum + r.2.2.1
             total_sip := st.total_sip + r.2.2.2 }

/-- The initial loop state: `results = []`, no warnings, totals 0. -/
def emptyPlanState : PlanState := ⟨[], [], 0, 0, 0⟩

/-- The whole backend goal loop: process the goals in input order,
threading the state; `none` is a run aborted by an uncaught exception. -/
def runPlan (cfg : PlanConfig) (gs : List Goal) : Option PlanState :=
  gs.foldlM (planStep cfg gs) emptyPlanState

/-- The result row a goal yields: `none` when the goal is skipped. -/
def rowOf (cfg : PlanConfig) (gs : List Goal) (g : Goal) : Option PlanRow :=
  if nMonths cfg g ≤ 0 then none else (goalComp cfg gs g).map (fun r => r.1)

/-- The amount a goal adds to `total_fv` (0 when skipped). -/
def fvContrib (cfg : PlanConfig) (gs : List Goal) (g : Goal) : ℚ :=
  if nMonths cfg g ≤ 0 then 0 else ((goalComp cfg gs g).map (fun r => r.2.1)).getD 0

/-- The amount a goal adds to `total_lumpsum` (0 when skipped). -/
def lsContrib (cfg : PlanConfig) (gs : List Goal) (g : Goal) : ℚ :=
  if nMonths cfg g ≤ 0 then 0 else ((goalComp cfg gs g).map (fun r => r.2.2.1)).getD 0

/-- The amount a goal adds to `total_sip` (0 when skipped). -/
def sipContrib (cfg : PlanConfig) (gs : List Goal) (g : Goal) : ℚ :=
  if nMonths cfg g ≤ 0 then 0 else ((goalComp cfg gs g).map (fun r => r.2.2.2)).getD 0

/-- Pulling a scalar factor out of a mapped list sum. -/
lemma list_sum_map_mul {α : Type} (S : ℚ) (f : α → ℚ) (l : List α) :
    (l.map (fun i => S * f i)).sum = S * (l.map f).sum := by
  induction l with
  | nil => simp
  | cons x t ih => simp [ih]; ring

/-- Pulling a common divisor out of a mapped list sum. -/
lemma list_sum_map_div {α : Type} (T : ℚ) (f : α → ℚ) (l : List α) :
    (l.map (fun i => f i / T)).sum = (l.map f).sum / T := by
  induction l with
  | nil => simp
  | cons x t ih => simp [ih, add_div]

/-- Unfolding the accumulation loop of `compute_future_value`: after `n`
months the accumulator is the sum of the first `n` contributions, each
stepped up by `(1+g)^(month/12)` and grown `N - month` months, and the
pending contribution is `S * (1+g)^(n/12)`. -/
lemma cfv_fold_eq (monthly_rate annual_step_up S : ℚ) (N n : ℕ) :
    (List.range n).foldl (cfvStep monthly_rate annual_step_up N) (0, S)
      = (S * ((List.range n).map
            (fun i => (1 + annual_step_up) ^ (i / 12)
              * (1 + monthly_rate) ^ (N - i))).sum,
         S * (1 + annual_step_up) ^ (n / 12)) := by
  induction n with
  | zero => simp
  | succ n ih =>
    rw [List.range_succ, List.foldl_append, ih]
    simp only [List.foldl_cons, List.foldl_nil, List.map_append, List.sum_append,
      List.map_cons, List.map_nil, List.sum_cons, List.sum_nil, cfvStep]
    rw [Prod.mk.injEq]
    constructor
    · ring
    · by_cases h : (n + 1) % 12 = 0
      · have hdvd : 12 ∣ n + 1 := Nat.dvd_iff_mod_eq_zero.mpr h
        have hq : (n + 1) / 12 = n / 12 + 1 := by
          rw [Nat.succ_div, if_pos hdvd]
        rw [if_pos h, hq, pow_succ]
        ring
      · have hq : (n + 1) / 12 = n / 12 := by
          rw [Nat.succ_div, if_neg (fun hd => h (Nat.dvd_iff_mod_eq_zero.mp hd))]
          omega
        rw [if_neg h, hq]

/-- Closed form of `compute_future_value`: the accumulation is the
starting contribution times a coefficient depending only on the rates
and the month count. -/
lemma compute_future_value_eq (monthly_rate annual_step_up : ℚ) (N : ℕ) (S : ℚ) :
    compute_future_value monthly_rate annual_step_up N S
      = S * ((List.range N).map
          (fun i => (1 + annual_step_up) ^ (i / 12)
            * (1 + monthly_rate) ^ (N - i))).sum := by
  unfold compute_future_value
  rw [cfv_fold_eq]

/-- Modelled from the spec (§4.2 algorithm): the forward accumulation as
the spec words it, where the contribution placed at elapsed month
`m = i + 1` grows for `totalMonths - m` further months at the monthly
rate, and months 1–12 use `S`, months 13–24 use `S*(1+g)`, and so on. -/
def specStepUpAccum (monthly_rate annual_step_up : ℚ) (N : ℕ) (S : ℚ) : ℚ :=
  ((List.range N).map
    (fun i => S * (1 + annual_step_up) ^ (i / 12)
      * (1 + monthly_rate) ^ (N - (i + 1)))).sum

/-- The spec's model amended by one month of growth per contribution:
the contribution placed at elapsed month `m = i + 1` grows for
`totalMonths - m + 1` further months (it is valued from the start of its
month), with the same step-up schedule. -/
def specStepUpAccumDue (monthly_rate annual_step_up : ℚ) (N : ℕ) (S : ℚ) : ℚ :=
  ((List.range N).map
    (fun i => S * (1 + annual_step_up) ^ (i / 12)
      * (1 + monthly_rate) ^ (N - i))).sum

/-- C3 (counterexample): the solver's forward accumulation does not match
the spec's month-level model.  With monthly rate 1, no step-up, one
total month and starting contribution 1, the code accumulates
`1 * (1+1)^(1-0) = 2` while the spec's model, growing the single
contribution for `totalMonths - m = 0` further months, gives 1. -/
theorem compute_future_value_ne_spec_model :
    compute_future_value 1 0 1 1 ≠ specStepUpAccum 1 0 1 1 := by
  have h1 : compute_future_value 1 0 1 1 = 2 := by with_unfolding_all rfl
  have h2 : specStepUpAccum 1 0 1 1 = 1 := by with_unfolding_all rfl
  rw [h1, h2]
  norm_num

/-- C3 (amended): the solver's forward accumulation matches the spec's
month-level model with each contribution growing for exactly
`totalMonths - m + 1` further months at the monthly rate
`annualRate/12`: contributions within the same 12-month year-block share
the same step level, the schedule being `S` in months 1–12, `S*(1+g)` in
months 13–24, `S*(1+g)^2` in months 25–36, and so on. -/
theorem compute_future_value_matches_due_model
    (annual_return annual_step_up : ℚ) (N : ℕ) (S : ℚ) :
    compute_future_value (annual_return / 12) annual_step_up N S
      = specStepUpAccumDue (annual_return / 12) annual_step_up N S := by
  rw [compute_future_value_eq]
  unfold specStepUpAccumDue
  have hfun : (fun i => S * (1 + annual_step_up) ^ (i / 12)
        * (1 + annual_return / 12) ^ (N - i))
      = fun i => S * ((1 + annual_step_up) ^ (i / 12)
        * (1 + annual_return / 12) ^ (N - i)) := by
    funext i
    ring
  rw [hfun, list_sum_map_mul]

/-- C9: for non-negative annual return and step-up rates and at least one
total month, the step-up solver's accumulation is strictly increasing in
the starting contribution `S` on `S ≥ 0`. -/
theorem compute_future_value_strictMono
    (annual_return annual_step_up S1 S2 : ℚ) (N : ℕ)
    (hr : 0 ≤ annual_return) (hg : 0 ≤ annual_step_up) (hN : 1 ≤ N)
    (hS1 : 0 ≤ S1) (hlt : S1 < S2) :
    compute_future_value (annual_return / 12) annual_step_up N S1
      < compute_future_value (annual_return / 12) annual_step_up N S2 := by
  rw [compute_future_value_eq, compute_future_value_eq]
  have hC : 0 < ((List.range N).map
      (fun i => (1 + annual_step_up) ^ (i / 12)
        * (1 + annual_return / 12) ^ (N - i))).sum := by
    apply List.sum_pos
    · intro x hx
      simp only [List.mem_map] at hx
      obtain ⟨i, hi, rfl⟩ := hx
      have h1 : (0:ℚ) < 1 + annual_step_up := by linarith
      have h2 : (0:ℚ) < 1 + annual_return / 12 := by linarith
      exact mul_pos (pow_pos h1 _) (pow_pos h2 _)
    · simp only [ne_eq, List.map_eq_nil_iff, List.range_eq_nil]
      omega
  exact mul_lt_mul_of_pos_right hlt hC

/-- C9 witness: at annual return 0, step-up 0, one month, the
accumulation at `S = 0` is below the accumulation at `S = 1`. -/
theorem compute_future_value_strictMono_witness :
    (0:ℚ) ≤ 0 ∧ (0:ℚ) ≤ 0 ∧ (1:ℕ) ≤ 1 ∧ (0:ℚ) ≤ 0 ∧ (0:ℚ) < 1 ∧
      compute_future_value (0 / 12) 0 1 0 < compute_future_value (0 / 12) 0 1 1 :=
  ⟨le_refl 0, le_refl 0, le_refl 1, le_refl 0, by norm_num,
    compute_future_value_strictMono 0 0 0 1 1 (le_refl 0) (le_refl 0)
      (le_refl 1) (le_refl 0) (by norm_num)⟩

/-- C2: the code has no zero-rate special case in `calculate_sip`: at
`rate = 0` the denominator `(1 + 0/12) ^ 12 - 1` is zero, so the call
with `fv = 1200`, `rate = 0`, `n_months = 12` raises `ZeroDivisionError`
(`none`) instead of returning `fv / months = 100`. -/
theorem calculate_sip_zero_rate_raises : calculate_sip 1200 0 12 = none := by
  with_unfolding_all rfl

set_option maxRecDepth 4000 in
/-- C6: with `years = 0` (hence `totalMonths = 0`) and target `fv = 1000`
the step-up solver does not fail: the accumulation function is constantly
0, every bisection step raises the low bound, and the solver returns the
numeric value `round(1000 * (1 - 2⁻¹⁰⁰), 2) = 1000` instead of a
`DomainError`. -/
theorem calculate_sip_step_up_no_domain_error :
    calculate_sip_step_up 1000 0 0 0 = 1000 := by
  with_unfolding_all rfl

/-- A run configuration on which one goal's funding computation raises:
constant SIP, `expectedReturn = 0`, savings 0, no lump sums, SIP starting
January of year 10. -/
def abortCfg : PlanConfig := ⟨fun _ _ => 1, 0, [], 10, 1, false, 0, 0⟩

/-- Two valid-horizon goals for `abortCfg`; computing the first goal's
constant SIP divides by zero at `expectedReturn = 0`. -/
def abortGoals : List Goal := [⟨"a", 10, 0, 0, 0, 0⟩, ⟨"b", 11, 0, 0, 0, 0⟩]

/-- C7: the goal loop has no per-goal error handling: when computing goal
"a"'s required SIP raises `ZeroDivisionError` (the denominator
`(1 + 0/12) ^ 11 - 1` is zero at `expectedReturn = 0`), the whole run
aborts — no totals and no result for goal "b" are produced. -/
theorem planner_aborts_on_domain_error : runPlan abortCfg abortGoals = none := by
  with_unfolding_all rfl

/-- The bisection loop preserves `0 ≤ low ≤ high ≤ fv` and keeps the last
midpoint within `[0, fv]`, for any accumulation function. -/
lemma stepUpBisect_bounds (cf : ℚ → ℚ) (fv : ℚ) (n : ℕ) :
    ∀ st : ℚ × ℚ × ℚ,
      0 ≤ st.1 → st.1 ≤ st.2.1 → st.2.1 ≤ fv → 0 ≤ st.2.2 → st.2.2 ≤ fv →
      0 ≤ (stepUpBisect cf fv n st).1 ∧
      (stepUpBisect cf fv n st).1 ≤ (stepUpBisect cf fv n st).2.1 ∧
      (stepUpBisect cf fv n st).2.1 ≤ fv ∧
      0 ≤ (stepUpBisect cf fv n st).2.2 ∧
      (stepUpBisect cf fv n st).2.2 ≤ fv := by
  induction n with
  | zero =>
    intro st h1 h2 h3 h4 h5
    exact ⟨h1, h2, h3, h4, h5⟩
  | succ n ih =>
    intro st h1 h2 h3 h4 h5
    have hlo : st.1 ≤ (st.1 + st.2.1) / 2 := by linarith
    have hhi : (st.1 + st.2.1) / 2 ≤ st.2.1 := by linarith
    simp only [stepUpBisect]
    by_cases hc : cf ((st.1 + st.2.1) / 2) < fv
    · rw [if_pos hc]
      exact ih ((st.1 + st.2.1) / 2, st.2.1, (st.1 + st.2.1) / 2)
        (by linarith) (by simpa using hhi) (by simpa using h3)
        (by simp; linarith) (by simp; linarith)
    · rw [if_neg hc]
      exact ih (st.1, (st.1 + st.2.1) / 2, (st.1 + st.2.1) / 2)
        (by simpa using h1) (by simpa using hlo) (by simp; linarith)
        (by simp; linarith) (by simp; linarith)

/-- A zero starting contribution accumulates to zero. -/
lemma compute_future_value_zero (monthly_rate annual_step_up : ℚ) (N : ℕ) :
    compute_future_value monthly_rate annual_step_up N 0 = 0 := by
  rw [compute_future_value_eq, zero_mul]

/-- With target 0 the bisection never moves: every midpoint is 0. -/
lemma stepUpBisect_target_zero (cf : ℚ → ℚ) (h : cf 0 = 0) (n : ℕ) :
    stepUpBisect cf 0 n (0, 0, 0) = (0, 0, 0) := by
  induction n with
  | zero => rfl
  | succ n ih =>
    simp only [stepUpBisect]
    have h0 : ((0:ℚ) + 0) / 2 = 0 := by norm_num
    rw [h0, h, if_neg (lt_irrefl 0), ih]

/-- Rounding zero gives zero. -/
lemma pyRound2_zero : pyRound2 0 = 0 := by
  with_unfolding_all rfl

/-- C10: for a non-negative target future value the step-up solver's
bisection keeps its midpoint within `[0, fv]` at every iteration count,
so the unrounded solved starting contribution is never negative and
never exceeds `fv`; and at `fv = 0` the solver returns exactly 0. -/
theorem stepUp_solver_bounds (fv annual_return years annual_step_up : ℚ)
    (hfv : 0 ≤ fv) :
    (∀ n : ℕ,
      0 ≤ (stepUpBisect
            (compute_future_value (annual_return / 12) annual_step_up
              (intTrunc (years * 12)).toNat) fv n (0, fv, 0)).2.2 ∧
      (stepUpBisect
            (compute_future_value (annual_return / 12) annual_step_up
              (intTrunc (years * 12)).toNat) fv n (0, fv, 0)).2.2 ≤ fv) ∧
    0 ≤ stepUpMid fv annual_return years annual_step_up ∧
    stepUpMid fv annual_return years annual_step_up ≤ fv ∧
    (fv = 0 →
      calculate_sip_step_up fv annual_return years annual_step_up = 0) := by
  have hmid : ∀ n : ℕ,
      0 ≤ (stepUpBisect
            (compute_future_value (annual_return / 12) annual_step_up
              (intTrunc (years * 12)).toNat) fv n (0, fv, 0)).2.2 ∧
      (stepUpBisect
            (compute_future_value (annual_return / 12) annual_step_up
              (intTrunc (years * 12)).toNat) fv n (0, fv, 0)).2.2 ≤ fv := by
    intro n
    have h := stepUpBisect_bounds
      (compute_future_value (annual_return / 12) annual_step_up
        (intTrunc (years * 12)).toNat) fv n (0, fv, 0)
      (le_refl 0) (by simpa using hfv) (by simp) (by simp) (by simpa using hfv)
    exact ⟨h.2.2.2.1, h.2.2.2.2⟩
  refine ⟨hmid, ?_, ?_, ?_⟩
  · simpa [stepUpMid] using (hmid 100).1
  · simpa [stepUpMid] using (hmid 100).2
  · intro h0
    subst h0
    unfold calculate_sip_step_up stepUpMid
    show pyRound2 ((stepUpBisect (compute_future_value (annual_return / 12)
        annual_step_up (intTrunc (years * 12)).toNat) 0 100 (0, 0, 0)).2.2) = 0
    rw [stepUpBisect_target_zero _ (compute_future_value_zero _ _ _) 100]
    exact pyRound2_zero

/-- C10 witness at `fv = 0`: the bisection midpoints stay in `[0, 0]` and
the solver returns exactly 0. -/
theorem stepUp_solver_bounds_witness :
    (0:ℚ) ≤ 0 ∧
    ((∀ n : ℕ,
      0 ≤ (stepUpBisect
            (compute_future_value ((0:ℚ) / 12) 0 (intTrunc (0 * 12)).toNat)
            0 n (0, 0, 0)).2.2 ∧
      (stepUpBisect
            (compute_future_value ((0:ℚ) / 12) 0 (intTrunc (0 * 12)).toNat)
            0 n (0, 0, 0)).2.2 ≤ 0) ∧
    0 ≤ stepUpMid 0 0 0 0 ∧ stepUpMid 0 0 0 0 ≤ 0 ∧
    ((0:ℚ) = 0 → calculate_sip_step_up 0 0 0 0 = 0)) :=
  ⟨le_refl 0, stepUp_solver_bounds 0 0 0 0 (le_refl 0)⟩

/-- C4: composing the future-value function with the lump-sum
present-value function at the same non-negative rate and the same whole
number of years returns the present value exactly, for any power oracle
that computes the exact power at these (integer-exponent) arguments. -/
theorem lump_sum_round_trip (pw : ℚ → ℚ → ℚ) (pv rate : ℚ) (years : ℕ)
    (hr : 0 ≤ rate)
    (hpw : pw (1 + rate) (years : ℚ) = (1 + rate) ^ (years : ℤ)) :
    calculate_lump_sum pw (calculate_future_value pv rate (years : ℤ)) rate
      (years : ℚ) = some pv := by
  have hpos : (0:ℚ) < (1 + rate) ^ (years : ℤ) := by
    apply zpow_pos
    linarith
  simp only [calculate_lump_sum, calculate_future_value, hpw]
  rw [if_neg (ne_of_gt hpos)]
  rw [mul_div_cancel_right₀ pv (ne_of_gt hpos)]

/-- C4 witness: `pv = 5`, `rate = 1`, `years = 3`, with a power oracle
returning the exact value 8 of `2 ^ 3`. -/
theorem lump_sum_round_trip_witness :
    (0:ℚ) ≤ 1 ∧
    (fun _ _ => (8:ℚ)) (1 + 1) (((3:ℕ)) : ℚ) = (1 + 1) ^ (((3:ℕ)) : ℤ) ∧
    calculate_lump_sum (fun _ _ => (8:ℚ))
      (calculate_future_value 5 1 ((3:ℕ) : ℤ)) 1 ((3:ℕ) : ℚ) = some 5 :=
  ⟨by norm_num, by norm_num,
    lump_sum_round_trip (fun _ _ => (8:ℚ)) 5 1 3 (by norm_num) (by norm_num)⟩

/-- Looking up the key just written. -/
lemma dictInsert_self (d : String → Option ℚ) (k : String) (v : ℚ) :
    dictInsert d k v k = some v := by
  simp [dictInsert]

/-- Looking up a different key sees through the write. -/
lemma dictInsert_other (d : String → Option ℚ) (k : String) (v : ℚ) (s : String)
    (h : s ≠ k) : dictInsert d k v s = d s := by
  simp [dictInsert, h]

/-- A fold of insertions leaves a name that is not written unchanged. -/
lemma foldl_insert_not_mem (f : Goal → ℚ) (l : List Goal) (s : String)
    (h : s ∉ l.map Goal.name) :
    ∀ d : String → Option ℚ,
      l.foldl (fun d g => dictInsert d g.name (f g)) d s = d s := by
  induction l with
  | nil => intro d; rfl
  | cons x t ih =>
    intro d
    simp only [List.map_cons, List.mem_cons, not_or] at h
    simp only [List.foldl_cons]
    rw [ih h.2, dictInsert_other _ _ _ _ h.1]

/-- With pairwise-distinct names, a fold of insertions stores each
member's value. -/
lemma foldl_insert_mem (f : Goal → ℚ) (l : List Goal) (g : Goal)
    (hnd : (l.map Goal.name).Nodup) (hg : g ∈ l) :
    ∀ d : String → Option ℚ,
      l.foldl (fun d g => dictInsert d g.name (f g)) d g.name = some (f g) := by
  induction l with
  | nil => cases hg
  | cons x t ih =>
    intro d
    simp only [List.map_cons, List.nodup_cons] at hnd
    simp only [List.foldl_cons]
    rcases List.mem_cons.mp hg with hgx | hgt
    · subst hgx
      rw [foldl_insert_not_mem f t g.name hnd.1, dictInsert_self]
    · exact ih hnd.2 hgt _

/-- The zero-initialisation fold also leaves absent names unchanged. -/
lemma foldl_zero_not_mem (l : List Goal) (s : String)
    (h : s ∉ l.map Goal.name) :
    ∀ d : String → Option ℚ,
      l.foldl (fun d g => dictInsert d g.name 0) d s = d s := by
  induction l with
  | nil => intro d; rfl
  | cons x t ih =>
    intro d
    simp only [List.map_cons, List.mem_cons, not_or] at h
    simp only [List.foldl_cons]
    rw [ih h.2, dictInsert_other _ _ _ _ h.1]

/-- The zero-initialisation fold maps every present name to 0. -/
lemma foldl_zero_mem (l : List Goal) (s : String) (h : s ∈ l.map Goal.name) :
    ∀ d : String → Option ℚ,
      l.foldl (fun d g => dictInsert d g.name 0) d s = some 0 := by
  induction l with
  | nil => simp at h
  | cons x t ih =>
    intro d
    simp only [List.foldl_cons]
    by_cases ht : s ∈ t.map Goal.name
    · exact ih ht _
    · have hx : s = x.name := by
        simp only [List.map_cons, List.mem_cons] at h
        tauto
      rw [foldl_zero_not_mem t s ht, hx, dictInsert_self]

/-- Every goal of the list is initialised to 0 in `zeroDict`. -/
lemma zeroDict_mem (gs : List Goal) (g : Goal) (hg : g ∈ gs) :
    zeroDict gs g.name = some 0 :=
  foldl_zero_mem gs g.name (List.mem_map_of_mem Goal.name hg) emptyDict

/-- The eligible goals are a sublist of the goals. -/
lemma eligibleGoals_sublist (gs : List Goal) (lsy : Option ℤ) :
    (eligibleGoals gs lsy).Sublist gs := by
  cases lsy with
  | none => exact List.Sublist.refl gs
  | some y => exact List.filter_sublist gs

/-- On an empty goal list the eligible set is empty. -/
lemma eligibleGoals_nil (lsy : Option ℤ) : eligibleGoals [] lsy = [] := by
  cases lsy with
  | none => rfl
  | some y => rfl

/-- When one of the three zero guards of `distribute_proportionally`
fires, the function returns the all-zero dict. -/
lemma distribute_eq_zeroDict (ta : ℚ) (gs : List Goal) (lsy : Option ℤ)
    (h : ta ≤ 0 ∨ eligibleGoals gs lsy = []
      ∨ ((eligibleGoals gs lsy).map (fun g => g.presentCost)).sum = 0) :
    distribute_proportionally ta gs lsy = zeroDict gs := by
  simp only [distribute_proportionally]
  by_cases h1 : gs = [] ∨ ta ≤ 0
  · rw [if_pos h1]
  · rw [if_neg h1]
    by_cases h2 : eligibleGoals gs lsy = []
    · rw [if_pos h2]
    · rw [if_neg h2]
      have h3 : ((eligibleGoals gs lsy).map (fun g => g.presentCost)).sum = 0 := by
        rcases h with h | h | h
        · exact absurd (Or.inr h) h1
        · exact absurd h h2
        · exact h
      rw [if_pos h3]

/-- When no zero guard fires, `distribute_proportionally` is the
proportional-write fold over the eligible goals. -/
lemma distribute_eq_fold (ta : ℚ) (gs : List Goal) (lsy : Option ℤ)
    (h1 : ¬(gs = [] ∨ ta ≤ 0)) (h2 : eligibleGoals gs lsy ≠ [])
    (h3 : ((eligibleGoals gs lsy).map (fun g => g.presentCost)).sum ≠ 0) :
    distribute_proportionally ta gs lsy
      = (eligibleGoals gs lsy).foldl
          (fun d g => dictInsert d g.name
            (ta * (g.presentCost
              / ((eligibleGoals gs lsy).map (fun g => g.presentCost)).sum)))
          (zeroDict gs) := by
  simp only [distribute_proportionally]
  rw [if_neg h1, if_neg h2, if_neg h3]

/-- C8: whenever the pool amount is non-positive, or the eligible set is
empty, or the eligible goals' present costs sum to 0, every goal of the
list is mapped to exactly 0. -/
theorem distribute_all_zero (ta : ℚ) (gs : List Goal) (lsy : Option ℤ)
    (h : ta ≤ 0 ∨ eligibleGoals gs lsy = []
      ∨ ((eligibleGoals gs lsy).map (fun g => g.presentCost)).sum = 0) :
    ∀ g ∈ gs, distribute_proportionally ta gs lsy g.name = some 0 := by
  intro g hg
  rw [distribute_eq_zeroDict ta gs lsy h]
  exact zeroDict_mem gs g hg

/-- C8 witness: a negative pool maps the single goal to 0. -/
theorem distribute_all_zero_witness :
    ((-1:ℚ) ≤ 0 ∨ eligibleGoals [⟨"a", 5, 1, 0, 0, 0⟩] none = []
      ∨ ((eligibleGoals [⟨"a", 5, 1, 0, 0, 0⟩] none).map
          (fun g => g.presentCost)).sum = 0) ∧
    ∀ g ∈ [(⟨"a", 5, 1, 0, 0, 0⟩ : Goal)],
      distribute_proportionally (-1) [⟨"a", 5, 1, 0, 0, 0⟩] none g.name
        = some 0 :=
  ⟨Or.inl (by norm_num),
    distribute_all_zero (-1) [⟨"a", 5, 1, 0, 0, 0⟩] none (Or.inl (by norm_num))⟩

/-- C1: with a positive pool, distinct goal names, a non-empty eligible
set and a positive eligible present-cost total, the allocations over the
eligible goals sum exactly to the pool amount, each eligible goal
receives `pool * (presentCost / totalEligiblePresentCost)`, and every
ineligible goal (target year not strictly after the given availability
year) is mapped to exactly 0. -/
theorem distribute_proportional_alloc (ta : ℚ) (gs : List Goal)
    (lsy : Option ℤ) (hpos : 0 < ta) (hnd : (gs.map Goal.name).Nodup)
    (hne : eligibleGoals gs lsy ≠ [])
    (hsum : 0 < ((eligibleGoals gs lsy).map (fun g => g.presentCost)).sum) :
    (((eligibleGoals gs lsy).map
        (fun g => (distribute_proportionally ta gs lsy g.name).getD 0)).sum
      = ta)
    ∧ (∀ g ∈ eligibleGoals gs lsy,
        distribute_proportionally ta gs lsy g.name
          = some (ta * (g.presentCost
              / ((eligibleGoals gs lsy).map (fun g => g.presentCost)).sum)))
    ∧ (∀ g ∈ gs, ∀ y : ℤ, lsy = some y → ¬ y < g.year →
        distribute_proportionally ta gs lsy g.name = some 0) := by
  have h1 : ¬(gs = [] ∨ ta ≤ 0) := by
    rintro (hnil | hle)
    · exact hne (by rw [hnil, eligibleGoals_nil])
    · linarith
  have hfold := distribute_eq_fold ta gs lsy h1 hne (ne_of_gt hsum)
  have hndE : ((eligibleGoals gs lsy).map Goal.name).Nodup :=
    ((eligibleGoals_sublist gs lsy).map Goal.name).nodup hnd
  have hvals : ∀ g ∈ eligibleGoals gs lsy,
      distribute_proportionally ta gs lsy g.name
        = some (ta * (g.presentCost
            / ((eligibleGoals gs lsy).map (fun g => g.presentCost)).sum)) := by
    intro g hg
    rw [hfold]
    exact foldl_insert_mem
      (fun g => ta * (g.presentCost
        / ((eligibleGoals gs lsy).map (fun g => g.presentCost)).sum))
      (eligibleGoals gs lsy) g hndE hg (zeroDict gs)
  refine ⟨?_, hvals, ?_⟩
  · have hmap : (eligibleGoals gs lsy).map
        (fun g => (distribute_proportionally ta gs lsy g.name).getD 0)
        = (eligibleGoals gs lsy).map
            (fun g => ta * (g.presentCost
              / ((eligibleGoals gs lsy).map (fun g => g.presentCost)).sum)) := by
      apply List.map_congr_left
      intro g hg
      rw [hvals g hg]
      rfl
    rw [hmap, list_sum_map_mul, list_sum_map_div, div_self (ne_of_gt hsum),
      mul_one]
  · intro g hg y hy hnlt
    subst hy
    have hnm : g.name ∉ (eligibleGoals gs (some y)).map Goal.name := by
      intro hmem
      obtain ⟨h, hh, hhm⟩ := List.mem_map.mp hmem
      have hhgs : h ∈ gs := (eligibleGoals_sublist gs (some y)).subset hh
      have hheq : h = g := List.inj_on_of_nodup_map hnd hhgs hg hhm
      subst hheq
      have := (List.mem_filter.mp hh).2
      simp only [decide_eq_true_eq] at this
      exact hnlt this
    rw [hfold]
    exact (foldl_insert_not_mem _ _ _ hnm (zeroDict gs)).trans
      (zeroDict_mem gs g hg)

/-- C1 witness: pool 10 with availability year 2 over goals "a" (year 5,
cost 3, eligible) and "b" (year 2, cost 7, ineligible): "a" receives the
whole pool, "b" receives exactly 0, and the eligible allocations sum to
the pool. -/
theorem distribute_proportional_alloc_witness :
    (0:ℚ) < 10 ∧
    ((((eligibleGoals [⟨"a", 5, 3, 0, 0, 0⟩, ⟨"b", 2, 7, 0, 0, 0⟩]
          (some 2)).map
        (fun g => (distribute_proportionally 10
            [⟨"a", 5, 3, 0, 0, 0⟩, ⟨"b", 2, 7, 0, 0, 0⟩] (some 2)
            g.name).getD 0)).sum = 10)
    ∧ (∀ g ∈ eligibleGoals [⟨"a", 5, 3, 0, 0, 0⟩, ⟨"b", 2, 7, 0, 0, 0⟩]
          (some 2),
        distribute_proportionally 10
            [⟨"a", 5, 3, 0, 0, 0⟩, ⟨"b", 2, 7, 0, 0, 0⟩] (some 2) g.name
          = some (10 * (g.presentCost
              / ((eligibleGoals [⟨"a", 5, 3, 0, 0, 0⟩, ⟨"b", 2, 7, 0, 0, 0⟩]
                  (some 2)).map (fun g => g.presentCost)).sum)))
    ∧ (∀ g ∈ [(⟨"a", 5, 3, 0, 0, 0⟩ : Goal), ⟨"b", 2, 7, 0, 0, 0⟩],
        ∀ y : ℤ, (some 2 : Option ℤ) = some y → ¬ y < g.year →
        distribute_proportionally 10
          [⟨"a", 5, 3, 0, 0, 0⟩, ⟨"b", 2, 7, 0, 0, 0⟩] (some 2) g.name
          = some 0)) :=
  ⟨by norm_num,
    distribute_proportional_alloc 10
      [⟨"a", 5, 3, 0, 0, 0⟩, ⟨"b", 2, 7, 0, 0, 0⟩] (some 2)
      (by norm_num) (by simp) (by with_unfolding_all decide)
      (by with_unfolding_all decide)⟩

/-- The result row built by `goalComp` carries the goal's own name. -/
lemma goalComp_row_goal (cfg : PlanConfig) (gs : List Goal) (g : Goal)
    (r : PlanRow × ℚ × ℚ × ℚ) (h : goalComp cfg gs g = some r) :
    r.1.goal = g.name := by
  simp only [goalComp, Option.bind_eq_some] at h
  obtain ⟨ls, hls, sip, hsip, hr⟩ := h
  injection hr with hr
  rw [← hr]

/-- Characterisation of a successful run of the goal loop from any
starting state: warnings collect the skipped goals' names in input order,
result rows collect the processed goals' rows in input order, each total
grows by exactly the per-goal contributions, and every non-skipped
goal's computation succeeded. -/
lemma foldPlan_eq (cfg : PlanConfig) (gs : List Goal) :
    ∀ (l : List Goal) (st res : PlanState),
      l.foldlM (planStep cfg gs) st = some res →
      res.warnings = st.warnings
          ++ (l.filter (fun g => decide (nMonths cfg g ≤ 0))).map Goal.name ∧
      res.results = st.results ++ l.filterMap (rowOf cfg gs) ∧
      res.total_fv = st.total_fv + (l.map (fvContrib cfg gs)).sum ∧
      res.total_lumpsum = st.total_lumpsum + (l.map (lsContrib cfg gs)).sum ∧
      res.total_sip = st.total_sip + (l.map (sipContrib cfg gs)).sum ∧
      ∀ g ∈ l, ¬ nMonths cfg g ≤ 0 → (goalComp cfg gs g).isSome := by
  intro l
  induction l with
  | nil =>
    intro st res h
    simp only [List.foldlM_nil, Option.pure_def, Option.some.injEq] at h
    subst h
    simp
  | cons x t ih =>
    intro st res h
    rw [List.foldlM_cons] at h
    cases hstep : planStep cfg gs st x with
    | none =>
      rw [hstep] at h
      simp at h
    | some stx =>
      rw [hstep] at h
      simp only [Option.bind_eq_bind, Option.some_bind] at h
      obtain ⟨hw, hres, hfv, hls, hsip, hsome⟩ := ih stx res h
      by_cases hskip : nMonths cfg x ≤ 0
      · rw [planStep, if_pos hskip] at hstep
        injection hstep with hstep
        subst hstep
        simp only at hw hres hfv hls hsip
        refine ⟨?_, ?_, ?_, ?_, ?_, ?_⟩
        · rw [hw, List.filter_cons, if_pos (by simpa using hskip)]
          simp [List.append_assoc]
        · rw [hres, List.filterMap_cons]
          have hrow : rowOf cfg gs x = none := by
            simp [rowOf, hskip]
          rw [hrow]
        · rw [hfv, List.map_cons, List.sum_cons]
          have : fvContrib cfg gs x = 0 := by simp [fvContrib, hskip]
          rw [this, zero_add]
        · rw [hls, List.map_cons, List.sum_cons]
          have : lsContrib cfg gs x = 0 := by simp [lsContrib, hskip]
          rw [this, zero_add]
        · rw [hsip, List.map_cons, List.sum_cons]
          have : sipContrib cfg gs x = 0 := by simp [sipContrib, hskip]
          rw [this, zero_add]
        · intro g hg hns
          rcases List.mem_cons.mp hg with hgx | hgt
          · subst hgx
            exact absurd hskip hns
          · exact hsome g hgt hns
      · rw [planStep, if_neg hskip] at hstep
        cases hcomp : goalComp cfg gs x with
        | none =>
          rw [hcomp] at hstep
          cases hstep
        | some r =>
          rw [hcomp] at hstep
          injection hstep with hstep
          subst hstep
          simp only at hw hres hfv hls hsip
          refine ⟨?_, ?_, ?_, ?_, ?_, ?_⟩
          · rw [hw, List.filter_cons, if_neg (by simpa using hskip)]
          · rw [hres, List.filterMap_cons]
            have hrow : rowOf cfg gs x = some r.1 := by
              simp [rowOf, hskip, hcomp]
            rw [hrow]
            simp [List.append_assoc]
          · rw [hfv, List.map_cons, List.sum_cons]
            have : fvContrib cfg gs x = r.2.1 := by
              simp [fvContrib, hskip, hcomp]
            rw [this]
            ring
          · rw [hls, List.map_cons, List.sum_cons]
            have : lsContrib cfg gs x = r.2.2.1 := by
              simp [lsContrib, hskip, hcomp]
            rw [this]
            ring
          · rw [hsip, List.map_cons, List.sum_cons]
            have : sipContrib cfg gs x = r.2.2.2 := by
              simp [sipContrib, hskip, hcomp]
            rw [this]
            ring
          · intro g hg hns
            rcases List.mem_cons.mp hg with hgx | hgt
            · subst hgx
              simp [hcomp]
            · exact hsome g hgt hns

/-- C5: in a successful run, a goal whose computed month count is
non-positive is skipped: its name appears in the warnings, no result row
carries its name, each total decomposes as the sum of per-goal
contributions in which the skipped goal contributes exactly 0, and every
goal with a positive month count still produces a result row. -/
theorem planner_skips_goal (cfg : PlanConfig) (gs : List Goal) (g : Goal)
    (res : PlanState) (hrun : runPlan cfg gs = some res) (hg : g ∈ gs)
    (hskip : nMonths cfg g ≤ 0) (hnd : (gs.map Goal.name).Nodup) :
    g.name ∈ res.warnings ∧
    (∀ row ∈ res.results, row.goal ≠ g.name) ∧
    res.total_fv = (gs.map (fvContrib cfg gs)).sum ∧
    res.total_lumpsum = (gs.map (lsContrib cfg gs)).sum ∧
    res.total_sip = (gs.map (sipContrib cfg gs)).sum ∧
    fvContrib cfg gs g = 0 ∧ lsContrib cfg gs g = 0 ∧
    sipContrib cfg gs g = 0 ∧
    (∀ h ∈ gs, ¬ nMonths cfg h ≤ 0 →
      ∃ row ∈ res.results, row.goal = h.name) := by
  rw [runPlan] at hrun
  obtain ⟨hw, hres, hfv, hls, hsip, hsome⟩ :=
    foldPlan_eq cfg gs gs emptyPlanState res hrun
  simp only [emptyPlanState, List.nil_append, zero_add] at hw hres hfv hls hsip
  refine ⟨?_, ?_, hfv, hls, hsip, ?_, ?_, ?_, ?_⟩
  · rw [hw]
    exact List.mem_map_of_mem Goal.name
      (List.mem_filter.mpr ⟨hg, by simpa using hskip⟩)
  · intro row hrow
    rw [hres] at hrow
    obtain ⟨h, hh, hrowof⟩ := List.mem_filterMap.mp hrow
    by_cases hns : nMonths cfg h ≤ 0
    · simp [rowOf, hns] at hrowof
    · rw [rowOf, if_neg hns] at hrowof
      obtain ⟨r, hr, hrrow⟩ := Option.map_eq_some'.mp hrowof
      have hname : row.goal = h.name := by
        rw [← hrrow]
        exact goalComp_row_goal cfg gs h r hr
      rw [hname]
      intro heq
      have hhg : h = g := List.inj_on_of_nodup_map hnd hh hg heq
      subst hhg
      exact hns hskip
  · simp [fvContrib, hskip]
  · simp [lsContrib, hskip]
  · simp [sipContrib, hskip]
  · intro h hh hns
    have hs := hsome h hh hns
    obtain ⟨r, hr⟩ := Option.isSome_iff_exists.mp hs
    refine ⟨r.1, ?_, goalComp_row_goal cfg gs h r hr⟩
    rw [hres]
    exact List.mem_filterMap.mpr ⟨h, hh, by simp [rowOf, hns, hr]⟩

/-- A run configuration with constant SIP, `expectedReturn = 12` (i.e.
1200 %, keeping the arithmetic small), no savings and no lump sums, SIP
starting January of year 10. -/
def skipCfg : PlanConfig := ⟨fun _ _ => 1, 0, [], 10, 1, false, 0, 12⟩

/-- Goal "a" targets year 5 (before the SIP start, so it is skipped);
goal "b" targets year 10 (11 months of horizon). -/
def skipGoals : List Goal := [⟨"a", 5, 0, 0, 0, 0⟩, ⟨"b", 10, 0, 0, 0, 0⟩]

/-- The state an actual run of `skipCfg` over `skipGoals` produces. -/
def skipRes : PlanState := (runPlan skipCfg skipGoals).getD emptyPlanState

/-- C5 witness: the run of `skipCfg` over `skipGoals` succeeds, skips
goal "a" with a warning and no row and zero contribution, and still
processes goal "b". -/
theorem planner_skips_goal_witness :
    (runPlan skipCfg skipGoals = some skipRes ∧
      (⟨"a", 5, 0, 0, 0, 0⟩ : Goal) ∈ skipGoals ∧
      nMonths skipCfg ⟨"a", 5, 0, 0, 0, 0⟩ ≤ 0 ∧
      (skipGoals.map Goal.name).Nodup) ∧
    ("a" ∈ skipRes.warnings ∧
    (∀ row ∈ skipRes.results, row.goal ≠ "a") ∧
    skipRes.total_fv = (skipGoals.map (fvContrib skipCfg skipGoals)).sum ∧
    skipRes.total_lumpsum
      = (skipGoals.map (lsContrib skipCfg skipGoals)).sum ∧
    skipRes.total_sip = (skipGoals.map (sipContrib skipCfg skipGoals)).sum ∧
    fvContrib skipCfg skipGoals ⟨"a", 5, 0, 0, 0, 0⟩ = 0 ∧
    lsContrib skipCfg skipGoals ⟨"a", 5, 0, 0, 0, 0⟩ = 0 ∧
    sipContrib skipCfg skipGoals ⟨"a", 5, 0, 0, 0, 0⟩ = 0 ∧
    (∀ h ∈ skipGoals, ¬ nMonths skipCfg h ≤ 0 →
      ∃ row ∈ skipRes.results, row.goal = h.name)) :=
  ⟨⟨by with_unfolding_all rfl, by simp [skipGoals],
    by with_unfolding_all decide, by with_unfolding_all decide⟩,
    planner_skips_goal skipCfg skipGoals ⟨"a", 5, 0, 0, 0, 0⟩ skipRes
      (by with_unfolding_all rfl) (by simp [skipGoals])
      (by with_unfolding_all decide) (by with_unfolding_all decide)⟩

end SIP
